import Mathlib

/-!
Verification of the juju repository fragments: the service init-system
discovery (`versionInitSystem`), the usermanager API client (`Client.AddUser`),
and the model-migration description subsystem (Model / Builder / Validator /
Codec).  The migration subsystem appears in the source only as Go interfaces,
so its operations are modelled from the specification document; everything
else is translated from the Go source.
-/

namespace Juju

/-! ## Init-system discovery (service/discovery.go, `src/unnamed/part_004`) -/

/-- Operating systems known to the `version` package.  The source switches on
`version.Windows` and `version.Ubuntu` and treats `version.Unknown` specially
inside the Ubuntu branch; every other value falls to the default case. -/
inductive OSType where
  | Unknown
  | Ubuntu
  | Windows
  | OSX
  | CentOS
deriving DecidableEq, Repr

/-- `version.Binary` restricted to the fields `versionInitSystem` reads:
the OS and the series string. -/
structure VersionBinary where
  os : OSType
  series : String
deriving DecidableEq, Repr

/-- Init system name constant from the service package. -/
def InitSystemWindows : String := "windows"

/-- Init system name constant from the service package. -/
def InitSystemUpstart : String := "upstart"

/-- Init system name constant from the service package. -/
def InitSystemSystemd : String := "systemd"

/-- The Ubuntu series handled by the explicit upstart case of
`versionInitSystem`. -/
def legacyUpstartSeries : List String :=
  ["precise", "quantal", "raring", "saucy", "trusty", "utopic"]

/-- Shallow embedding of `versionInitSystem` from the service package.
`getOSFromSeries` stands for `version.GetOSFromSeries` (external to the
provided sources) and `legacyUpstart` for
`featureflag.Enabled(feature.LegacyUpstart)`.  The Go function returns a
`(string, bool)` pair, reproduced literally. -/
def versionInitSystem (getOSFromSeries : String → OSType)
    (legacyUpstart : Bool) (vers : VersionBinary) : String × Bool :=
  match vers.os with
  | OSType.Windows => (InitSystemWindows, true)
  | OSType.Ubuntu =>
    if vers.series ∈ legacyUpstartSeries then
      (InitSystemUpstart, true)
    else if vers.series = "" then
      ("", false)
    else if getOSFromSeries vers.series = OSType.Unknown then
      ("", false)
    else if legacyUpstart then
      (InitSystemUpstart, true)
    else
      (InitSystemSystemd, true)
  | _ => ("", false)

end Juju

namespace Juju

/-! ## Usermanager API client (`src/state/api/usermanager/client.go`) -/

/-- `params.ModifyUser`: one requested user change. -/
structure ModifyUser where
  username : String
  displayName : String
  password : String
deriving DecidableEq, Repr

/-- One facade invocation recorded by the client: the method name and the
list of `ModifyUser` changes it carried. -/
structure FacadeInvocation where
  method : String
  changes : List ModifyUser
deriving DecidableEq, Repr

/-- Outcome of `Client.AddUser`: the returned error (if any) and the facade
invocations performed, in order. -/
structure AddUserOutcome where
  err : Option String
  invocations : List FacadeInvocation
deriving DecidableEq, Repr

/-- Shallow embedding of `Client.AddUser`.  `isUser` stands for
`names.IsUser` (external library) and `facade` for the remote side of
`facade.FacadeCall` composed with `results.OneError()`: it maps the changes
sent to the error the call reports back, `none` meaning success.  The Go code
first rejects an invalid username with `fmt.Errorf("invalid user name %q",
username)` without calling the facade; otherwise it performs exactly one
`AddUser` facade call carrying one `ModifyUser` and returns its error
outcome. -/
def clientAddUser (isUser : String → Bool)
    (facade : List ModifyUser → Option String)
    (username displayName password : String) : AddUserOutcome :=
  if ! isUser username then
    { err := some ("invalid user name \"" ++ username ++ "\""), invocations := [] }
  else
    let changes : List ModifyUser := [⟨username, displayName, password⟩]
    { err := facade changes, invocations := [⟨"AddUser", changes⟩] }

/-! ## Migration description subsystem (migration package interfaces in
`src/state/api/usermanager/client.go`).  The source declares the entity
interfaces only; the concrete record fields below mirror the interface
getters, and the builder, validator and codec operations are modelled from
the specification document. -/

/-- Agent tools version number (`version.Number`), with the fields the
comparison needs. -/
structure Version where
  major : Nat
  minor : Nat
  patch : Nat
deriving DecidableEq, Repr

/-- Lexicographic comparison on versions, used by the tools-monotonicity
check. -/
def Version.le (a b : Version) : Bool :=
  decide (a.major < b.major ∨ (a.major = b.major ∧
    (a.minor < b.minor ∨ (a.minor = b.minor ∧ a.patch ≤ b.patch))))

/-- The `Address` interface getters as record fields. -/
structure Address where
  value : String
  type : String
  networkName : String
  scope : String
  origin : String
deriving DecidableEq, Repr

/-- The `Status` interface getters as record fields; the free-form data map
is an association list and the timestamp a natural number. -/
structure Status where
  value : String
  message : String
  data : List (String × String)
  updated : Nat
deriving DecidableEq, Repr

/-- The `AgentTools` interface getters as record fields. -/
structure AgentTools where
  version : Version
  url : String
  sha256 : String
  size : Int
deriving DecidableEq, Repr

/-- The `CloudInstance` interface getters as record fields. -/
structure CloudInstance where
  instanceId : String
  status : String
  architecture : String
  memory : Nat
  rootDisk : Nat
  cpuCores : Nat
  cpuPower : Nat
  tags : List String
  availabilityZone : String
deriving DecidableEq, Repr

/-- The `User` interface getters as record fields; identity tags become
plain strings and times natural numbers. -/
structure User where
  name : String
  displayName : String
  createdBy : String
  dateCreated : Nat
  lastConnection : Nat
  readOnly : Bool
deriving DecidableEq, Repr

/-- The `Machine` interface getters as record fields.  Modelled from the
spec: containment is stored as an arena of machines plus per-machine lists
of contained machine ids (the arena-plus-index layout the specification
recommends), so that a crafted decode can produce arbitrary, even cyclic,
container chains. -/
structure Machine where
  id : String
  nonce : String
  passwordHash : String
  placement : String
  series : String
  containerType : String
  jobs : List String
  supportedContainers : Option (List String)
  cloudInstance : Option CloudInstance
  providerAddresses : List Address
  machineAddresses : List Address
  preferredPublic : Option Address
  preferredPrivate : Option Address
  tools : Option AgentTools
  containers : List String
  status : Option Status
deriving DecidableEq, Repr

/-- The `Service` interface getters as record fields. -/
structure Service where
  tag : String
  name : String
  series : String
  subordinate : Bool
  charmURL : String
  forceCharm : Bool
  exposed : Bool
  minUnits : Nat
  status : Option Status
deriving DecidableEq, Repr

/-- The `Model` aggregate root: owner, configuration, latest tools version
and the three entity collections.  `machines` is the arena of all machines,
containers included. -/
structure Model where
  owner : String
  config : List (String × String)
  latestToolsVersion : Version
  users : List User
  machines : List Machine
  services : List Service
deriving DecidableEq, Repr

/-! ### Builder -/

/-- Modelled from the spec: identity-tag parsing (the `names` library is not
among the provided sources); a tag is parsable exactly when it is
non-empty. -/
def validTag (s : String) : Bool :=
  s != ""

/-- `MachineArgs`: the argument struct for `AddMachine` / `AddContainer`;
the settable parts (instance, addresses, tools, status, containers) start
empty. -/
structure MachineArgs where
  id : String
  nonce : String
  passwordHash : String
  placement : String
  series : String
  containerType : String
  jobs : List String
  supportedContainers : Option (List String)
deriving DecidableEq, Repr

/-- The machine a fresh `AddMachine`/`AddContainer` call records: the
argument fields with every settable part empty. -/
def mkMachine (a : MachineArgs) : Machine :=
  ⟨a.id, a.nonce, a.passwordHash, a.placement, a.series, a.containerType,
    a.jobs, a.supportedContainers, none, [], [], none, none, none, [], none⟩

/-- Modelled from the spec: builder `AddUser`; fails only on an unparsable
user tag, in which case the model is returned unchanged, and otherwise
appends the user without any structural check. -/
def addUser (m : Model) (u : User) : Model × Option String :=
  if validTag u.name then
    ({ m with users := m.users ++ [u] }, none)
  else
    (m, some ("cannot parse user tag \"" ++ u.name ++ "\""))

/-- Modelled from the spec: builder `AddMachine`; fails only on an
unparsable machine tag and otherwise appends a fresh top-level machine to
the arena. -/
def addMachine (m : Model) (a : MachineArgs) : Model × Option String :=
  if validTag a.id then
    ({ m with machines := m.machines ++ [mkMachine a] }, none)
  else
    (m, some ("cannot parse machine tag \"" ++ a.id ++ "\""))

/-- Modelled from the spec: builder `AddContainer`; fails only on an
unparsable machine tag, and otherwise records the fresh machine in the
arena and its id in the parent's container list — without checking that the
parent exists, so orphan containers succeed at build time. -/
def addContainer (m : Model) (parentId : String) (a : MachineArgs) :
    Model × Option String :=
  if validTag a.id then
    ({ m with machines :=
        (m.machines.map (fun p =>
          if p.id = parentId then { p with containers := p.containers ++ [a.id] }
          else p)) ++ [mkMachine a] }, none)
  else
    (m, some ("cannot parse machine tag \"" ++ a.id ++ "\""))

/-- `ServiceArgs`: the argument struct for `AddService`. -/
structure ServiceArgs where
  tag : String
  name : String
  series : String
  subordinate : Bool
  charmURL : String
  forceCharm : Bool
  exposed : Bool
  minUnits : Nat
deriving DecidableEq, Repr

/-- The service a fresh `AddService` call records. -/
def mkService (a : ServiceArgs) : Service :=
  ⟨a.tag, a.name, a.series, a.subordinate, a.charmURL, a.forceCharm,
    a.exposed, a.minUnits, none⟩

/-- Modelled from the spec: builder `AddService`; fails only on an
unparsable service tag. -/
def addService (m : Model) (a : ServiceArgs) : Model × Option String :=
  if validTag a.tag then
    ({ m with services := m.services ++ [mkService a] }, none)
  else
    (m, some ("cannot parse service tag \"" ++ a.tag ++ "\""))

/-- Applies a field update to the machine with the given id, leaving the
rest of the model untouched. -/
def updateMachine (m : Model) (id : String) (f : Machine → Machine) : Model :=
  { m with machines :=
      m.machines.map (fun mach => if mach.id = id then f mach else mach) }

/-- Modelled from the spec: machine handle setter `SetInstance`; records the
cloud instance without any validation and never fails. -/
def setInstance (m : Model) (id : String) (ci : CloudInstance) :
    Model × Option String :=
  (updateMachine m id (fun mach => { mach with cloudInstance := some ci }), none)

/-- Modelled from the spec: machine handle setter `SetAddresses`; records
both address sets without any validation and never fails. -/
def setAddresses (m : Model) (id : String)
    (machineAddrs providerAddrs : List Address) : Model × Option String :=
  (updateMachine m id (fun mach =>
    { mach with machineAddresses := machineAddrs,
                providerAddresses := providerAddrs }), none)

/-- Modelled from the spec: machine handle setter `SetStatus`; records the
status, however inconsistent, and never fails. -/
def setStatus (m : Model) (id : String) (st : Status) : Model × Option String :=
  (updateMachine m id (fun mach => { mach with status := some st }), none)

/-- Modelled from the spec: machine handle setter `SetTools`; records the
agent tools without comparing versions and never fails. -/
def setTools (m : Model) (id : String) (t : AgentTools) : Model × Option String :=
  (updateMachine m id (fun mach => { mach with tools := some t }), none)

/-! ### Validator -/

/-- Modelled from the spec: one reported structural defect, carrying the
kind of violation and the identity of the offending entity. -/
inductive ValidationIssue where
  | emptyUsers
  | ownerNotFound (owner : String)
  | duplicateUser (name : String)
  | duplicateMachine (id : String)
  | cycle (id : String)
  | depthExceeded (id : String)
  | missingMachine (id : String)
  | badContainerType (id : String)
  | badAddress (machineId : String) (value : String)
  | badPreferred (machineId : String)
  | machineBadStatus (id : String)
  | toolsTooNew (id : String)
  | duplicateService (tag : String)
  | serviceBadStatus (tag : String)
deriving DecidableEq, Repr

/-- True for the issues reported by the user phase of validation. -/
def ValidationIssue.isUserIssue : ValidationIssue → Bool
  | .emptyUsers => true
  | .ownerNotFound _ => true
  | .duplicateUser _ => true
  | _ => false

/-- True for the issues reported by the machine phase of validation. -/
def ValidationIssue.isMachineIssue : ValidationIssue → Bool
  | .duplicateMachine _ => true
  | .cycle _ => true
  | .depthExceeded _ => true
  | .missingMachine _ => true
  | .badContainerType _ => true
  | .badAddress _ _ => true
  | .badPreferred _ => true
  | .machineBadStatus _ => true
  | .toolsTooNew _ => true
  | _ => false

/-- True for the issues reported by the service phase of validation. -/
def ValidationIssue.isServiceIssue : ValidationIssue → Bool
  | .duplicateService _ => true
  | .serviceBadStatus _ => true
  | _ => false

/-- The not-yet-seen elements of the second list, keeping only the first
copy of each. -/
def dedupSeen (seen : List String) : List String → List String
  | [] => []
  | x :: xs => if x ∈ seen then dedupSeen seen xs else x :: dedupSeen (x :: seen) xs

/-- The elements of a list keeping only the first copy of each. -/
def dedupKeepFirst (l : List String) : List String :=
  dedupSeen [] l

/-- The identities occurring more than once in a list, each reported
once, in first-occurrence order. -/
def duplicates (l : List String) : List String :=
  (dedupKeepFirst l).filter (fun x => 2 ≤ l.count x)

/-- Modelled from the spec: the user phase of validation — user-set
non-emptiness, owner-reference check, and user-name uniqueness, in
insertion order. -/
def usersCheck (owner : String) (users : List User) : List ValidationIssue :=
  (if users.isEmpty then [ValidationIssue.emptyUsers] else []) ++
  (if users.any (fun u => u.name == owner) then []
   else [ValidationIssue.ownerNotFound owner]) ++
  (duplicates (users.map User.name)).map ValidationIssue.duplicateUser

/-- True when the id is listed as a container of some machine in the
arena. -/
def isContainerId (arena : List Machine) (id : String) : Bool :=
  arena.any (fun p => p.containers.contains id)

/-- The ids of the top-level machines: those not listed as a container of
any machine, in insertion order. -/
def topLevelIds (arena : List Machine) : List String :=
  (arena.filter (fun mach => ! isContainerId arena mach.id)).map Machine.id

/-- Modelled from the spec: the issue reported when a container's declared
container type is absent from its parent's supported set; an absent
supported set raises nothing, and top-level machines have no parent to
check. -/
def containerTypeIssues (parent : Option Machine) (child : Machine) :
    List ValidationIssue :=
  match parent with
  | none => []
  | some p =>
    match p.supportedContainers with
    | none => []
    | some supported =>
      if supported.contains child.containerType then []
      else [ValidationIssue.badContainerType child.id]

/-- Modelled from the spec: the capped depth-first containment walk.  A
machine reachable again on the current path is reported as a cycle and not
descended into; exhausted fuel is reported as a depth-limit issue; a
container id with no machine in the arena is reported as missing.  One unit
of fuel is spent per machine processed, so the recursion depth is capped by
the initial fuel and the walk is structurally recursive on it, terminating
on every input, cyclic container chains included. -/
def walkIds : List Machine → Nat → List String → Option Machine →
    List String → List ValidationIssue
  | _, _, _, _, [] => []
  | _, 0, _, _, id :: _ => [ValidationIssue.depthExceeded id]
  | arena, fuel + 1, visited, parent, id :: rest =>
    (if id ∈ visited then [ValidationIssue.cycle id]
     else
       match arena.find? (fun mach => mach.id == id) with
       | none => [ValidationIssue.missingMachine id]
       | some mach =>
         containerTypeIssues parent mach ++
         walkIds arena fuel (id :: visited) (some mach) mach.containers) ++
    walkIds arena fuel visited parent rest

/-- Modelled from the spec: per-machine well-formedness of one address —
non-empty value, recognized scope, and provider/machine origin. -/
def validAddress (a : Address) : Bool :=
  a.value != "" &&
  (["public", "local-cloud", "local-machine", "link-local"]).contains a.scope &&
  (a.origin == "provider" || a.origin == "machine")

/-- The issues for the malformed addresses of one machine, in order. -/
def addressIssues (machineId : String) (addrs : List Address) :
    List ValidationIssue :=
  (addrs.filter (fun a => ! validAddress a)).map
    (fun a => ValidationIssue.badAddress machineId a.value)

/-- Raises the given issue when the optional record is present and fails
its acceptance test; the shape shared by the preferred-address, status and
tools checks. -/
def gatedIssue (bad : ValidationIssue) (keep : α → Bool) :
    Option α → List ValidationIssue
  | none => []
  | some x => if keep x then [] else [bad]

/-- Modelled from the spec: a preferred address, if set, must be present in
the machine's own address sets. -/
def preferredIssues (mach : Machine) : List ValidationIssue :=
  gatedIssue (ValidationIssue.badPreferred mach.id)
    (fun a => decide (a ∈ mach.providerAddresses ++ mach.machineAddresses))
    mach.preferredPublic ++
  gatedIssue (ValidationIssue.badPreferred mach.id)
    (fun a => decide (a ∈ mach.providerAddresses ++ mach.machineAddresses))
    mach.preferredPrivate

/-- Modelled from the spec: a machine status, when declared, must carry a
non-empty status value. -/
def machineStatusIssues (mach : Machine) : List ValidationIssue :=
  gatedIssue (ValidationIssue.machineBadStatus mach.id)
    (fun st => st.value != "") mach.status

/-- Modelled from the spec: machine tools, when set, must not exceed the
model-level latest tools version. -/
def toolsIssues (latest : Version) (mach : Machine) : List ValidationIssue :=
  gatedIssue (ValidationIssue.toolsTooNew mach.id)
    (fun t => Version.le t.version latest) mach.tools

/-- The per-machine local checks: addresses, preferred addresses, status,
tools, in that order. -/
def machineLocalIssues (latest : Version) (mach : Machine) :
    List ValidationIssue :=
  addressIssues mach.id (mach.providerAddresses ++ mach.machineAddresses) ++
  preferredIssues mach ++ machineStatusIssues mach ++ toolsIssues latest mach

/-- Modelled from the spec: the machine phase of validation — machine-id
uniqueness over the flattened arena, the depth-first containment walk from
each top-level machine, then the per-machine local checks in insertion
order.  The fuel is quadratic in the arena size, enough for the walk to
visit every machine of a genuine containment forest. -/
def machinesCheck (latest : Version) (arena : List Machine) :
    List ValidationIssue :=
  (duplicates (arena.map Machine.id)).map ValidationIssue.duplicateMachine ++
  walkIds arena ((arena.length + 1) * (arena.length + 1)) [] none
    (topLevelIds arena) ++
  (arena.map (machineLocalIssues latest)).flatten

/-- Modelled from the spec: a service status, when declared, must carry a
non-empty status value. -/
def serviceLocalIssues (s : Service) : List ValidationIssue :=
  gatedIssue (ValidationIssue.serviceBadStatus s.tag)
    (fun st => st.value != "") s.status

/-- Modelled from the spec: the service phase of validation — service-tag
uniqueness then per-service checks, in insertion order. -/
def servicesCheck (services : List Service) : List ValidationIssue :=
  (duplicates (services.map Service.tag)).map ValidationIssue.duplicateService ++
  (services.map serviceLocalIssues).flatten

/-- Modelled from the spec: `Validate` — a pure function returning the
complete aggregated issue list, the phases concatenated in the stable
traversal order users, machines (depth-first), services. -/
def validate (m : Model) : List ValidationIssue :=
  usersCheck m.owner m.users ++
  machinesCheck m.latestToolsVersion m.machines ++
  servicesCheck m.services

/-! ### Codec -/

/-- Modelled from the spec: the portable representation a model is encoded
into — a tree of strings, numbers, booleans and lists, carrying the schema
version at its top level. -/
inductive Value where
  | str (s : String)
  | nat (n : Nat)
  | int (i : Int)
  | bool (b : Bool)
  | list (vs : List Value)

/-- The schema version the codec writes and the only one it accepts. -/
def schemaVersion : Nat := 1

/-- Encoder for optional fields: an empty or singleton list. -/
def encodeOpt (f : α → Value) : Option α → Value
  | none => Value.list []
  | some x => Value.list [f x]

/-- Encoder for list fields. -/
def encodeListWith (f : α → Value) (l : List α) : Value :=
  Value.list (l.map f)

/-- Decoder for string leaves. -/
def decodeStr : Value → Except String String
  | Value.str s => Except.ok s
  | _ => Except.error "malformed string"

/-- Decoder for optional fields; anything but an empty or singleton list is
rejected. -/
def decodeOpt (g : Value → Except String α) : Value → Except String (Option α)
  | Value.list [] => Except.ok none
  | Value.list [v] => (g v).map some
  | _ => Except.error "malformed option"

/-- Decoder for a list of values, aggregating element decoders and failing
on the first malformed element. -/
def decodeVals (g : Value → Except String α) :
    List Value → Except String (List α)
  | [] => Except.ok []
  | v :: vs => do
    let x ← g v
    let xs ← decodeVals g vs
    pure (x :: xs)

/-- Decoder for list fields. -/
def decodeListWith (g : Value → Except String α) : Value → Except String (List α)
  | Value.list vs => decodeVals g vs
  | _ => Except.error "malformed list"

/-- Encoder for configuration entries. -/
def encodePair (p : String × String) : Value :=
  Value.list [Value.str p.1, Value.str p.2]

/-- Decoder for configuration entries. -/
def decodePair : Value → Except String (String × String)
  | Value.list [Value.str a, Value.str b] => Except.ok (a, b)
  | _ => Except.error "malformed pair"

/-- Encoder for version numbers. -/
def encodeVersion (v : Version) : Value :=
  Value.list [Value.nat v.major, Value.nat v.minor, Value.nat v.patch]

/-- Decoder for version numbers. -/
def decodeVersion : Value → Except String Version
  | Value.list [Value.nat a, Value.nat b, Value.nat c] => Except.ok ⟨a, b, c⟩
  | _ => Except.error "malformed version"

/-- Encoder for addresses. -/
def encodeAddress (a : Address) : Value :=
  Value.list [Value.str a.value, Value.str a.type, Value.str a.networkName,
    Value.str a.scope, Value.str a.origin]

/-- Decoder for addresses. -/
def decodeAddress : Value → Except String Address
  | Value.list [Value.str v, Value.str t, Value.str n, Value.str sc,
      Value.str o] => Except.ok ⟨v, t, n, sc, o⟩
  | _ => Except.error "malformed address"

/-- Encoder for status records. -/
def encodeStatus (st : Status) : Value :=
  Value.list [Value.str st.value, Value.str st.message,
    encodeListWith encodePair st.data, Value.nat st.updated]

/-- Decoder for status records. -/
def decodeStatus : Value → Except String Status
  | Value.list [Value.str v, Value.str msg, d, Value.nat u] => do
    let data ← decodeListWith decodePair d
    pure ⟨v, msg, data, u⟩
  | _ => Except.error "malformed status"

/-- Encoder for agent tools. -/
def encodeTools (t : AgentTools) : Value :=
  Value.list [encodeVersion t.version, Value.str t.url, Value.str t.sha256,
    Value.int t.size]

/-- Decoder for agent tools. -/
def decodeTools : Value → Except String AgentTools
  | Value.list [v, Value.str u, Value.str sh, Value.int sz] => do
    let ver ← decodeVersion v
    pure ⟨ver, u, sh, sz⟩
  | _ => Except.error "malformed tools"

/-- Encoder for cloud instances. -/
def encodeCloudInstance (ci : CloudInstance) : Value :=
  Value.list [Value.str ci.instanceId, Value.str ci.status,
    Value.str ci.architecture, Value.nat ci.memory, Value.nat ci.rootDisk,
    Value.nat ci.cpuCores, Value.nat ci.cpuPower,
    encodeListWith Value.str ci.tags, Value.str ci.availabilityZone]

/-- Decoder for cloud instances. -/
def decodeCloudInstance : Value → Except String CloudInstance
  | Value.list [Value.str iid, Value.str st, Value.str ar, Value.nat mem,
      Value.nat rd, Value.nat cc, Value.nat cp, tg, Value.str az] => do
    let tags ← decodeListWith decodeStr tg
    pure ⟨iid, st, ar, mem, rd, cc, cp, tags, az⟩
  | _ => Except.error "malformed cloud instance"

/-- Encoder for users. -/
def encodeUser (u : User) : Value :=
  Value.list [Value.str u.name, Value.str u.displayName, Value.str u.createdBy,
    Value.nat u.dateCreated, Value.nat u.lastConnection, Value.bool u.readOnly]

/-- Decoder for users. -/
def decodeUser : Value → Except String User
  | Value.list [Value.str n, Value.str dn, Value.str cb, Value.nat dc,
      Value.nat lc, Value.bool ro] => Except.ok ⟨n, dn, cb, dc, lc, ro⟩
  | _ => Except.error "malformed user"

/-- Encoder for machines, container-id list included. -/
def encodeMachine (mach : Machine) : Value :=
  Value.list [Value.str mach.id, Value.str mach.nonce,
    Value.str mach.passwordHash, Value.str mach.placement,
    Value.str mach.series, Value.str mach.containerType,
    encodeListWith Value.str mach.jobs,
    encodeOpt (encodeListWith Value.str) mach.supportedContainers,
    encodeOpt encodeCloudInstance mach.cloudInstance,
    encodeListWith encodeAddress mach.providerAddresses,
    encodeListWith encodeAddress mach.machineAddresses,
    encodeOpt encodeAddress mach.preferredPublic,
    encodeOpt encodeAddress mach.preferredPrivate,
    encodeOpt encodeTools mach.tools,
    encodeListWith Value.str mach.containers,
    encodeOpt encodeStatus mach.status]

/-- Decoder for machines. -/
def decodeMachine : Value → Except String Machine
  | Value.list [Value.str i, Value.str no, Value.str ph, Value.str pl,
      Value.str se, Value.str ct, jv, scv, civ, pav, mav, ppv, pvv, tv, cv,
      sv] => do
    let jobs ← decodeListWith decodeStr jv
    let supported ← decodeOpt (decodeListWith decodeStr) scv
    let cloud ← decodeOpt decodeCloudInstance civ
    let provider ← decodeListWith decodeAddress pav
    let machineAddrs ← decodeListWith decodeAddress mav
    let prefPub ← decodeOpt decodeAddress ppv
    let prefPriv ← decodeOpt decodeAddress pvv
    let tools ← decodeOpt decodeTools tv
    let containers ← decodeListWith decodeStr cv
    let status ← decodeOpt decodeStatus sv
    pure ⟨i, no, ph, pl, se, ct, jobs, supported, cloud, provider,
      machineAddrs, prefPub, prefPriv, tools, containers, status⟩
  | _ => Except.error "malformed machine"

/-- Encoder for services. -/
def encodeService (s : Service) : Value :=
  Value.list [Value.str s.tag, Value.str s.name, Value.str s.series,
    Value.bool s.subordinate, Value.str s.charmURL, Value.bool s.forceCharm,
    Value.bool s.exposed, Value.nat s.minUnits, encodeOpt encodeStatus s.status]

/-- Decoder for services. -/
def decodeService : Value → Except String Service
  | Value.list [Value.str tg, Value.str n, Value.str se, Value.bool su,
      Value.str cu, Value.bool fc, Value.bool ex, Value.nat mu, sv] => do
    let status ← decodeOpt decodeStatus sv
    pure ⟨tg, n, se, su, cu, fc, ex, mu, status⟩
  | _ => Except.error "malformed service"

/-- Modelled from the spec: `Encode` — a versioned document with the schema
version first, then the model metadata and the three collections.  Purely
structural; it never fails. -/
def encodeModel (m : Model) : Value :=
  Value.list [Value.nat schemaVersion, Value.str m.owner,
    encodeListWith encodePair m.config, encodeVersion m.latestToolsVersion,
    encodeListWith encodeUser m.users, encodeListWith encodeMachine m.machines,
    encodeListWith encodeService m.services]

/-- Modelled from the spec: `Decode` — rejects an unsupported schema version
outright, rejects malformed shapes field by field, and otherwise rebuilds
the model. -/
def decodeModel : Value → Except String Model
  | Value.list [Value.nat v, Value.str owner, cfg, ver, us, ms, ss] =>
    if v = schemaVersion then do
      let config ← decodeListWith decodePair cfg
      let latest ← decodeVersion ver
      let users ← decodeListWith decodeUser us
      let machines ← decodeListWith decodeMachine ms
      let services ← decodeListWith decodeService ss
      pure ⟨owner, config, latest, users, machines, services⟩
    else Except.error "unsupported schema version"
  | _ => Except.error "malformed model"

/-! ### Concrete models used as test vectors -/

/-- A machine with the given id and no optional data set. -/
def benignMachine (id : String) : Machine :=
  ⟨id, "fake-nonce", "hash", "", "bionic", "", ["host-units"], none, none,
    [], [], none, none, none, [], none⟩

/-- The owner account used by the concrete scenarios. -/
def alice : User :=
  ⟨"alice", "Alice", "admin", 10, 20, false⟩

/-- The tools record carried by the scenario's top-level machine. -/
def exampleTools : AgentTools :=
  ⟨⟨1, 2, 3⟩, "https://tools", "abc123", 42⟩

/-- The scenario's top-level machine: one container, supported container
types declared, tools, a provider address and a status. -/
def exampleMachine0 : Machine :=
  { benignMachine "0" with
      containers := ["0-lxd-0"]
      supportedContainers := some ["lxd"]
      tools := some exampleTools
      providerAddresses := [⟨"10.0.0.1", "ipv4", "net", "local-cloud", "provider"⟩]
      status := some ⟨"started", "", [], 5⟩ }

/-- The spec's concrete scenario: owner alice, one top-level machine with
one container, one service; it passes validation. -/
def exampleModel : Model :=
  { owner := "alice"
    config := [("name", "test"), ("uuid", "deadbeef")]
    latestToolsVersion := ⟨2, 0, 0⟩
    users := [alice]
    machines :=
      [exampleMachine0,
        { benignMachine "0-lxd-0" with containerType := "lxd" }]
    services :=
      [⟨"service-mysql", "mysql", "bionic", false, "cs:mysql-1", false, false,
        0, some ⟨"active", "", [], 7⟩⟩] }

/-- A crafted arena whose container chain loops: machine 0 contains 1 and
machine 1 lists itself as its own container. -/
def cyclicModel : Model :=
  { owner := "alice"
    config := []
    latestToolsVersion := ⟨2, 0, 0⟩
    users := [alice]
    machines :=
      [{ benignMachine "0" with containers := ["1"] },
        { benignMachine "1" with containers := ["1"] }]
    services := [] }

/-- A tools record newer than version 1.0.0. -/
def newerTools : AgentTools :=
  ⟨⟨2, 0, 0⟩, "https://tools", "abc123", 42⟩

/-- A machine carrying the newer tools record. -/
def newerToolsMachine : Machine :=
  { benignMachine "0" with tools := some newerTools }

/-- A model whose only defect is one machine carrying agent tools newer
than the model-level latest tools version. -/
def staleToolsModel : Model :=
  { owner := "alice"
    config := []
    latestToolsVersion := ⟨1, 0, 0⟩
    users := [alice]
    machines := [newerToolsMachine]
    services := [] }

/-- A model with two independent defects: no users at all, and a machine
whose tools are newer than the model-level latest version. -/
def twoDefectModel : Model :=
  { owner := "alice"
    config := []
    latestToolsVersion := ⟨1, 0, 0⟩
    users := []
    machines := [newerToolsMachine]
    services := [] }

/-- A model whose only defect is the owner account being declared twice. -/
def dupUserModel : Model :=
  { owner := "alice"
    config := []
    latestToolsVersion := ⟨2, 0, 0⟩
    users := [alice, alice]
    machines := []
    services := [] }

end Juju

namespace Juju

/-- C9: a username rejected by `names.IsUser` makes `Client.AddUser` return
an error naming that username without any facade call, so remote state is
untouched; an accepted username produces exactly one `AddUser` facade call
carrying exactly one `ModifyUser` change with the given fields. -/
theorem clientAddUser_spec (isUser : String → Bool)
    (facade : List ModifyUser → Option String)
    (username displayName password : String) :
    (isUser username = false →
      clientAddUser isUser facade username displayName password =
        { err := some ("invalid user name \"" ++ username ++ "\""),
          invocations := [] }) ∧
    (isUser username = true →
      (clientAddUser isUser facade username displayName password).invocations =
        [⟨"AddUser", [⟨username, displayName, password⟩]⟩]) := by
  constructor
  · intro h
    simp [clientAddUser, h]
  · intro h
    simp [clientAddUser, h]

/-- Concrete instantiation of `clientAddUser_spec` at a rejecting and at an
accepting username oracle. -/
theorem clientAddUser_spec_witness :
    clientAddUser (fun _ => false) (fun _ => none) "b@d" "Bad" "pw" =
      { err := some ("invalid user name \"b@d\""), invocations := [] } ∧
    (clientAddUser (fun _ => true) (fun _ => none) "alice" "Alice" "pw").invocations =
      [⟨"AddUser", [⟨"alice", "Alice", "pw"⟩]⟩] := by
  constructor
  · exact (clientAddUser_spec (fun _ => false) (fun _ => none) "b@d" "Bad" "pw").1 rfl
  · exact (clientAddUser_spec (fun _ => true) (fun _ => none) "alice" "Alice" "pw").2 rfl

/-- C10: `versionInitSystem` is total in the version argument and follows the
documented case analysis: Windows gives the windows init system; the six
pre-vivid Ubuntu series give upstart; an empty Ubuntu series or one whose OS
is unknown gives no answer; any other known Ubuntu series gives upstart under
the legacy-upstart flag and systemd otherwise; every other OS gives no
answer. -/
theorem versionInitSystem_cases :
    (∀ g flag s, versionInitSystem g flag ⟨OSType.Windows, s⟩ = (InitSystemWindows, true)) ∧
    (∀ g flag s, s ∈ legacyUpstartSeries →
      versionInitSystem g flag ⟨OSType.Ubuntu, s⟩ = (InitSystemUpstart, true)) ∧
    (∀ g flag, versionInitSystem g flag ⟨OSType.Ubuntu, ""⟩ = ("", false)) ∧
    (∀ g flag s, s ∉ legacyUpstartSeries → g s = OSType.Unknown →
      versionInitSystem g flag ⟨OSType.Ubuntu, s⟩ = ("", false)) ∧
    (∀ g s, s ∉ legacyUpstartSeries → s ≠ "" → g s ≠ OSType.Unknown →
      versionInitSystem g true ⟨OSType.Ubuntu, s⟩ = (InitSystemUpstart, true) ∧
      versionInitSystem g false ⟨OSType.Ubuntu, s⟩ = (InitSystemSystemd, true)) ∧
    (∀ g flag os s, os ≠ OSType.Windows → os ≠ OSType.Ubuntu →
      versionInitSystem g flag ⟨os, s⟩ = ("", false)) := by
  refine ⟨?_, ?_, ?_, ?_, ?_, ?_⟩
  · intro g flag s
    rfl
  · intro g flag s hs
    simp [versionInitSystem, hs]
  · intro g flag
    simp [versionInitSystem, legacyUpstartSeries]
  · intro g flag s hs hg
    by_cases he : s = ""
    · subst he
      simp [versionInitSystem, legacyUpstartSeries]
    · simp [versionInitSystem, hs, he, hg]
  · intro g s hs he hg
    constructor
    · simp [versionInitSystem, hs, he, hg]
    · simp [versionInitSystem, hs, he, hg]
  · intro g flag os s h1 h2
    cases os <;> simp [versionInitSystem] at h1 h2 ⊢

/-- Concrete instantiations of `versionInitSystem_cases`, discharging each
hypothesis at an explicit input. -/
theorem versionInitSystem_cases_witness :
    versionInitSystem (fun _ => OSType.Ubuntu) true ⟨OSType.Ubuntu, "trusty"⟩ =
      (InitSystemUpstart, true) ∧
    versionInitSystem (fun _ => OSType.Unknown) false ⟨OSType.Ubuntu, "foo"⟩ =
      ("", false) ∧
    versionInitSystem (fun _ => OSType.Ubuntu) true ⟨OSType.Ubuntu, "vivid"⟩ =
      (InitSystemUpstart, true) ∧
    versionInitSystem (fun _ => OSType.Ubuntu) false ⟨OSType.Ubuntu, "vivid"⟩ =
      (InitSystemSystemd, true) ∧
    versionInitSystem (fun _ => OSType.Ubuntu) true ⟨OSType.CentOS, "7"⟩ =
      ("", false) := by
  refine ⟨?_, ?_, ?_, ?_, ?_⟩
  · exact versionInitSystem_cases.2.1 (fun _ => OSType.Ubuntu) true "trusty" (by decide)
  · exact versionInitSystem_cases.2.2.2.1 (fun _ => OSType.Unknown) false "foo"
      (by decide) rfl
  · exact (versionInitSystem_cases.2.2.2.2.1 (fun _ => OSType.Ubuntu) "vivid"
      (by decide) (by decide) (by decide)).1
  · exact (versionInitSystem_cases.2.2.2.2.1 (fun _ => OSType.Ubuntu) "vivid"
      (by decide) (by decide) (by decide)).2
  · exact versionInitSystem_cases.2.2.2.2.2 (fun _ => OSType.Ubuntu) true
      OSType.CentOS "7" (by decide) (by decide)

/-! ### Codec round-trip lemmas -/

theorem ok_bind {α β : Type} (a : α) (f : α → Except String β) :
    (Except.ok a >>= f) = f a := rfl

theorem pure_eq_ok {α : Type} (a : α) :
    (pure a : Except String α) = Except.ok a := rfl

theorem ok_map {α β : Type} (a : α) (g : α → β) :
    (Except.ok a : Except String α).map g = Except.ok (g a) := rfl

theorem decodeVals_roundTrip {α : Type} (g : Value → Except String α)
    (f : α → Value) (h : ∀ x, g (f x) = Except.ok x) :
    ∀ l : List α, decodeVals g (l.map f) = Except.ok l := by
  intro l
  induction l with
  | nil => rfl
  | cons x xs ih =>
    simp only [List.map_cons, decodeVals, h x, ih, ok_bind, pure_eq_ok]

theorem decodeListWith_roundTrip {α : Type} (g : Value → Except String α)
    (f : α → Value) (h : ∀ x, g (f x) = Except.ok x) (l : List α) :
    decodeListWith g (encodeListWith f l) = Except.ok l := by
  simp only [decodeListWith, encodeListWith, decodeVals_roundTrip g f h l]

theorem decodeOpt_roundTrip {α : Type} (g : Value → Except String α)
    (f : α → Value) (h : ∀ x, g (f x) = Except.ok x) (o : Option α) :
    decodeOpt g (encodeOpt f o) = Except.ok o := by
  cases o with
  | none => rfl
  | some x => simp only [decodeOpt, encodeOpt, h x, ok_map]

theorem decodeStr_roundTrip (s : String) :
    decodeStr (Value.str s) = Except.ok s := rfl

theorem decodePair_roundTrip (p : String × String) :
    decodePair (encodePair p) = Except.ok p := rfl

theorem decodeVersion_roundTrip (v : Version) :
    decodeVersion (encodeVersion v) = Except.ok v := rfl

theorem decodeAddress_roundTrip (a : Address) :
    decodeAddress (encodeAddress a) = Except.ok a := rfl

theorem decodeUser_roundTrip (u : User) :
    decodeUser (encodeUser u) = Except.ok u := rfl

theorem decodeStatus_roundTrip (st : Status) :
    decodeStatus (encodeStatus st) = Except.ok st := by
  simp only [decodeStatus, encodeStatus,
    decodeListWith_roundTrip decodePair encodePair decodePair_roundTrip,
    ok_bind, pure_eq_ok]

theorem decodeTools_roundTrip (t : AgentTools) :
    decodeTools (encodeTools t) = Except.ok t := by
  simp only [decodeTools, encodeTools, decodeVersion_roundTrip, ok_bind,
    pure_eq_ok]

theorem decodeCloudInstance_roundTrip (ci : CloudInstance) :
    decodeCloudInstance (encodeCloudInstance ci) = Except.ok ci := by
  simp only [decodeCloudInstance, encodeCloudInstance,
    decodeListWith_roundTrip decodeStr Value.str decodeStr_roundTrip,
    ok_bind, pure_eq_ok]

theorem decodeMachine_roundTrip (mach : Machine) :
    decodeMachine (encodeMachine mach) = Except.ok mach := by
  simp only [decodeMachine, encodeMachine,
    decodeListWith_roundTrip decodeStr Value.str decodeStr_roundTrip,
    decodeOpt_roundTrip (decodeListWith decodeStr) (encodeListWith Value.str)
      (decodeListWith_roundTrip decodeStr Value.str decodeStr_roundTrip),
    decodeOpt_roundTrip decodeCloudInstance encodeCloudInstance
      decodeCloudInstance_roundTrip,
    decodeListWith_roundTrip decodeAddress encodeAddress decodeAddress_roundTrip,
    decodeOpt_roundTrip decodeAddress encodeAddress decodeAddress_roundTrip,
    decodeOpt_roundTrip decodeTools encodeTools decodeTools_roundTrip,
    decodeOpt_roundTrip decodeStatus encodeStatus decodeStatus_roundTrip,
    ok_bind, pure_eq_ok]

theorem decodeService_roundTrip (s : Service) :
    decodeService (encodeService s) = Except.ok s := by
  simp only [decodeService, encodeService,
    decodeOpt_roundTrip decodeStatus encodeStatus decodeStatus_roundTrip,
    ok_bind, pure_eq_ok]

theorem decodeModel_roundTrip (m : Model) :
    decodeModel (encodeModel m) = Except.ok m := by
  simp only [decodeModel, encodeModel,
    decodeListWith_roundTrip decodePair encodePair decodePair_roundTrip,
    decodeVersion_roundTrip,
    decodeListWith_roundTrip decodeUser encodeUser decodeUser_roundTrip,
    decodeListWith_roundTrip decodeMachine encodeMachine decodeMachine_roundTrip,
    decodeListWith_roundTrip decodeService encodeService decodeService_roundTrip,
    ok_bind, pure_eq_ok, if_pos rfl, if_true]

/-- C1: decoding the encoding of a model that passes validation yields the
model itself, entity collections, value records and containment lists
intact, and re-validating the decoded model returns the same empty issue
set. -/
theorem decode_encode_roundTrip (m : Model) (h : validate m = []) :
    decodeModel (encodeModel m) = Except.ok m ∧
    ∀ m2, decodeModel (encodeModel m) = Except.ok m2 →
      validate m2 = validate m ∧ validate m2 = [] := by
  refine ⟨decodeModel_roundTrip m, ?_⟩
  intro m2 h2
  rw [decodeModel_roundTrip m] at h2
  injection h2 with h3
  subst h3
  exact ⟨rfl, h⟩

/-- Concrete instantiation of `decode_encode_roundTrip` at the spec's
three-entity scenario model, whose validation is empty by computation. -/
theorem decode_encode_roundTrip_witness :
    decodeModel (encodeModel exampleModel) = Except.ok exampleModel ∧
    validate exampleModel = [] :=
  ⟨(decode_encode_roundTrip exampleModel rfl).1, rfl⟩

/-! ### Validator membership lemmas -/

theorem emptyUsers_mem (m : Model) (h : m.users = []) :
    ValidationIssue.emptyUsers ∈ validate m := by
  simp [validate, usersCheck, h]

theorem toolsTooNew_mem (m : Model) (mach : Machine) (t : AgentTools)
    (hm : mach ∈ m.machines) (ht : mach.tools = some t)
    (hv : Version.le t.version m.latestToolsVersion = false) :
    ValidationIssue.toolsTooNew mach.id ∈ validate m := by
  have h1 : ValidationIssue.toolsTooNew mach.id ∈
      machineLocalIssues m.latestToolsVersion mach := by
    simp [machineLocalIssues, toolsIssues, gatedIssue, ht, hv]
  have h2 : ValidationIssue.toolsTooNew mach.id ∈
      (m.machines.map (machineLocalIssues m.latestToolsVersion)).flatten :=
    List.mem_flatten.mpr ⟨machineLocalIssues m.latestToolsVersion mach,
      List.mem_map_of_mem _ hm, h1⟩
  simp only [validate, machinesCheck, List.mem_append]
  tauto

theorem two_le_length_of_two_mem {α : Type} {a b : α} {l : List α}
    (ha : a ∈ l) (hb : b ∈ l) (hne : a ≠ b) : 2 ≤ l.length := by
  match l with
  | [] => cases ha
  | [x] =>
    rw [List.mem_singleton] at ha hb
    exact absurd (ha.trans hb.symm) hne
  | x :: y :: t =>
    simp only [List.length_cons]
    omega

/-- C2: validation aggregates all defects in one call instead of stopping
at the first: a model that both has no users and contains a machine with
too-new tools gets both the empty-user-set issue and the tools issue, so at
least two issues in a single `validate` run. -/
theorem validate_aggregates (m : Model) (mach : Machine) (t : AgentTools)
    (hu : m.users = []) (hm : mach ∈ m.machines) (ht : mach.tools = some t)
    (hv : Version.le t.version m.latestToolsVersion = false) :
    ValidationIssue.emptyUsers ∈ validate m ∧
    ValidationIssue.toolsTooNew mach.id ∈ validate m ∧
    2 ≤ (validate m).length := by
  have h1 := emptyUsers_mem m hu
  have h2 := toolsTooNew_mem m mach t hm ht hv
  exact ⟨h1, h2, two_le_length_of_two_mem h1 h2 (by simp)⟩

/-- Concrete instantiation of `validate_aggregates` at the two-defect
model. -/
theorem validate_aggregates_witness :
    ValidationIssue.emptyUsers ∈ validate twoDefectModel ∧
    ValidationIssue.toolsTooNew "0" ∈ validate twoDefectModel ∧
    2 ≤ (validate twoDefectModel).length :=
  validate_aggregates twoDefectModel newerToolsMachine newerTools rfl
    (by decide) rfl rfl

/-- C3: the containment walk terminates on every arena — it is a total
function capped by its fuel — and a machine reached again on the current
path is reported as a cycle issue at once, never descended into; on the
crafted cyclic model the whole validation returns exactly the cycle
issue. -/
theorem validate_terminates_on_cycles :
    (∀ (arena : List Machine) (fuel : Nat) (visited : List String)
        (parent : Option Machine) (id : String) (rest : List String),
      id ∈ visited →
        walkIds arena (fuel + 1) visited parent (id :: rest) =
          ValidationIssue.cycle id :: walkIds arena fuel visited parent rest) ∧
    validate cyclicModel = [ValidationIssue.cycle "1"] := by
  constructor
  · intro arena fuel visited parent id rest h
    simp [walkIds, h]
  · rfl

/-- Concrete instantiation of `validate_terminates_on_cycles` for a machine
already on the walk's path. -/
theorem validate_terminates_on_cycles_witness :
    walkIds [] 1 ["1"] none ["1"] =
      ValidationIssue.cycle "1" :: walkIds [] 0 ["1"] none [] :=
  validate_terminates_on_cycles.1 [] 0 ["1"] none "1" [] (by decide)

/-- C4: a model with no users is reported invalid with the dedicated
empty-user-set issue, whatever its machines and services; and an owner tag
matching no declared user is reported with the owner-reference issue. -/
theorem validate_empty_users (m : Model) :
    (m.users = [] → ValidationIssue.emptyUsers ∈ validate m) ∧
    ((∀ u ∈ m.users, u.name ≠ m.owner) →
      ValidationIssue.ownerNotFound m.owner ∈ validate m) := by
  constructor
  · exact emptyUsers_mem m
  · intro h
    have hany : m.users.any (fun u => u.name == m.owner) = false := by
      simp only [List.any_eq_false, beq_iff_eq]
      exact h
    simp [validate, usersCheck, hany]

/-- Concrete instantiation of `validate_empty_users` at the two-defect
model, which has no users (so its owner in particular matches none). -/
theorem validate_empty_users_witness :
    ValidationIssue.emptyUsers ∈ validate twoDefectModel ∧
    ValidationIssue.ownerNotFound "alice" ∈ validate twoDefectModel :=
  ⟨(validate_empty_users twoDefectModel).1 rfl,
    (validate_empty_users twoDefectModel).2 (by simp [twoDefectModel])⟩

/-- C5: a model that passes validation has its model-level latest tools
version at or above every machine's tools version (services carry no tools
record in the source interfaces, so the bound over them is vacuous); and
the model whose only defect is one machine with newer tools fails with
exactly one issue naming that machine. -/
theorem tools_monotonic :
    (∀ m : Model, validate m = [] →
      ∀ mach ∈ m.machines, ∀ t, mach.tools = some t →
        Version.le t.version m.latestToolsVersion = true) ∧
    validate staleToolsModel = [ValidationIssue.toolsTooNew "0"] := by
  constructor
  · intro m hval mach hm t ht
    cases hb : Version.le t.version m.latestToolsVersion with
    | true => rfl
    | false =>
      have hmem := toolsTooNew_mem m mach t hm ht hb
      rw [hval] at hmem
      exact absurd hmem (List.not_mem_nil _)
  · rfl

/-- Concrete instantiation of `tools_monotonic` at the valid scenario
model, whose machine 0 carries tools version 1.2.3. -/
theorem tools_monotonic_witness :
    Version.le exampleTools.version exampleModel.latestToolsVersion = true :=
  tools_monotonic.1 exampleModel rfl exampleMachine0 (by decide)
    exampleTools rfl

theorem duplicates_pair (n : String) : duplicates [n, n] = [n] := by
  simp [duplicates, dedupKeepFirst, dedupSeen, List.count_cons]

theorem duplicates_single (n : String) : duplicates [n] = [] := by
  simp [duplicates, dedupKeepFirst, dedupSeen, List.count_cons]

/-- C6: a model whose user list holds the same name twice, and which is
otherwise defect-free (dropping the second copy validates cleanly), yields
exactly one validation issue, naming the duplicated user. -/
theorem duplicate_user_single_issue (m : Model) (u1 u2 : User)
    (hus : m.users = [u1, u2]) (hname : u1.name = u2.name)
    (hrest : validate { m with users := [u1] } = []) :
    validate m = [ValidationIssue.duplicateUser u1.name] := by
  have hparts : usersCheck m.owner [u1] = [] ∧
      machinesCheck m.latestToolsVersion m.machines = [] ∧
      servicesCheck m.services = [] := by
    simpa [validate, List.append_eq_nil] using hrest
  obtain ⟨h1, h2, h3⟩ := hparts
  have howner : (u1.name == m.owner) = true := by
    cases hb : (u1.name == m.owner) with
    | true => rfl
    | false =>
      simp [usersCheck, duplicates_single, hb] at h1
  have hdup : duplicates [u1.name, u2.name] = [u1.name] := by
    rw [← hname]
    exact duplicates_pair u1.name
  simp [validate, hus, usersCheck, howner, hdup, h2, h3]

/-- Concrete instantiation of `duplicate_user_single_issue` at the model
declaring alice twice. -/
theorem duplicate_user_single_issue_witness :
    validate dupUserModel = [ValidationIssue.duplicateUser "alice"] :=
  duplicate_user_single_issue dupUserModel alice alice rfl rfl rfl

/-- C7: the builder records structure without validating it — each Add
operation succeeds exactly when its identity tag parses, regardless of the
model it is applied to (so duplicates and orphan containers succeed), a
failed Add returns the model unchanged, and the Set operations never
fail. -/
theorem builder_no_validation :
    (∀ (m : Model) (u : User),
      ((addUser m u).2 = none ↔ validTag u.name = true) ∧
      ((addUser m u).2 ≠ none → (addUser m u).1 = m) ∧
      (validTag u.name = true → (addUser m u).1.users = m.users ++ [u])) ∧
    (∀ (m : Model) (a : MachineArgs),
      ((addMachine m a).2 = none ↔ validTag a.id = true) ∧
      ((addMachine m a).2 ≠ none → (addMachine m a).1 = m) ∧
      (validTag a.id = true →
        (addMachine m a).1.machines = m.machines ++ [mkMachine a])) ∧
    (∀ (m : Model) (p : String) (a : MachineArgs),
      ((addContainer m p a).2 = none ↔ validTag a.id = true) ∧
      ((addContainer m p a).2 ≠ none → (addContainer m p a).1 = m)) ∧
    (∀ (m : Model) (a : ServiceArgs),
      ((addService m a).2 = none ↔ validTag a.tag = true) ∧
      ((addService m a).2 ≠ none → (addService m a).1 = m) ∧
      (validTag a.tag = true →
        (addService m a).1.services = m.services ++ [mkService a])) ∧
    (∀ (m : Model) (id : String) (ci : CloudInstance),
      (setInstance m id ci).2 = none) ∧
    (∀ (m : Model) (id : String) (ma pa : List Address),
      (setAddresses m id ma pa).2 = none) ∧
    (∀ (m : Model) (id : String) (st : Status), (setStatus m id st).2 = none) ∧
    (∀ (m : Model) (id : String) (t : AgentTools), (setTools m id t).2 = none) := by
  refine ⟨?_, ?_, ?_, ?_, ?_, ?_, ?_, ?_⟩
  · intro m u
    by_cases h : validTag u.name = true
    · simp [addUser, h]
    · simp [addUser, h]
  · intro m a
    by_cases h : validTag a.id = true
    · simp [addMachine, h]
    · simp [addMachine, h]
  · intro m p a
    by_cases h : validTag a.id = true
    · simp [addContainer, h]
    · simp [addContainer, h]
  · intro m a
    by_cases h : validTag a.tag = true
    · simp [addService, h]
    · simp [addService, h]
  · intro m id ci
    rfl
  · intro m id ma pa
    rfl
  · intro m id st
    rfl
  · intro m id t
    rfl

/-- Concrete instantiations of `builder_no_validation`: adding the already
present user alice to the duplicate model still succeeds, adding a user
with an unparsable empty tag fails and leaves the model untouched, and an
orphan container under a parent absent from the arena succeeds. -/
theorem builder_no_validation_witness :
    (addUser dupUserModel alice).2 = none ∧
    (addUser dupUserModel ⟨"", "Bad", "x", 0, 0, false⟩).1 = dupUserModel ∧
    (addContainer dupUserModel "no-such-parent"
      ⟨"9", "n", "h", "", "bionic", "lxd", [], none⟩).2 = none :=
  ⟨((builder_no_validation.1 dupUserModel alice).1).mpr rfl,
    (builder_no_validation.1 dupUserModel ⟨"", "Bad", "x", 0, 0, false⟩).2.1
      (by decide),
    ((builder_no_validation.2.2.1 dupUserModel "no-such-parent"
      ⟨"9", "n", "h", "", "bionic", "lxd", [], none⟩).1).mpr rfl⟩

/-! ### Issue classification lemmas for the traversal-order theorem -/

theorem gatedIssue_sub {α : Type} (bad : ValidationIssue) (keep : α → Bool)
    (o : Option α) : ∀ i ∈ gatedIssue bad keep o, i = bad := by
  intro i hi
  cases o with
  | none => simp [gatedIssue] at hi
  | some x =>
    simp only [gatedIssue] at hi
    split at hi
    · simp at hi
    · simpa using hi

theorem containerTypeIssues_sub (parent : Option Machine) (child : Machine) :
    ∀ i ∈ containerTypeIssues parent child,
      i = ValidationIssue.badContainerType child.id := by
  intro i hi
  unfold containerTypeIssues at hi
  split at hi
  · simp at hi
  · split at hi
    · simp at hi
    · split at hi
      · simp at hi
      · simpa using hi

theorem addressIssues_sub (mid : String) (addrs : List Address) :
    ∀ i ∈ addressIssues mid addrs,
      ∃ v, i = ValidationIssue.badAddress mid v := by
  intro i hi
  simp only [addressIssues, List.mem_map] at hi
  obtain ⟨a, _, he⟩ := hi
  exact ⟨a.value, he.symm⟩

theorem usersCheck_only_user (o : String) (us : List User) :
    ∀ i ∈ usersCheck o us, i.isUserIssue = true := by
  intro i hi
  simp only [usersCheck, List.mem_append] at hi
  rcases hi with (h | h) | h
  · split at h
    · simp only [List.mem_singleton] at h
      subst h; rfl
    · simp at h
  · split at h
    · simp at h
    · simp only [List.mem_singleton] at h
      subst h; rfl
  · simp only [List.mem_map] at h
    obtain ⟨n, _, he⟩ := h
    subst he; rfl

theorem machineLocalIssues_only (latest : Version) (mach : Machine) :
    ∀ i ∈ machineLocalIssues latest mach, i.isMachineIssue = true := by
  intro i hi
  simp only [machineLocalIssues, List.mem_append] at hi
  rcases hi with ((h | h) | h) | h
  · obtain ⟨v, he⟩ := addressIssues_sub _ _ i h
    subst he; rfl
  · simp only [preferredIssues, List.mem_append] at h
    rcases h with h | h
    · have he := gatedIssue_sub _ _ _ i h
      subst he; rfl
    · have he := gatedIssue_sub _ _ _ i h
      subst he; rfl
  · simp only [machineStatusIssues] at h
    have he := gatedIssue_sub _ _ _ i h
    subst he; rfl
  · simp only [toolsIssues] at h
    have he := gatedIssue_sub _ _ _ i h
    subst he; rfl

theorem walkIds_only_machine (arena : List Machine) :
    ∀ (fuel : Nat) (ids visited : List String) (parent : Option Machine)
      (i : ValidationIssue), i ∈ walkIds arena fuel visited parent ids →
      i.isMachineIssue = true := by
  intro fuel
  induction fuel with
  | zero =>
    intro ids visited parent i hi
    cases ids with
    | nil => simp [walkIds] at hi
    | cons id rest =>
      simp only [walkIds, List.mem_singleton] at hi
      subst hi; rfl
  | succ fuel ih =>
    intro ids visited parent i hi
    cases ids with
    | nil => simp [walkIds] at hi
    | cons id rest =>
      simp only [walkIds, List.mem_append] at hi
      rcases hi with h | h
      · by_cases hv : id ∈ visited
        · rw [if_pos hv] at h
          simp only [List.mem_singleton] at h
          subst h; rfl
        · rw [if_neg hv] at h
          rcases hf : arena.find? (fun mach => mach.id == id) with _ | mach
          · rw [hf] at h
            simp only [List.mem_singleton] at h
            subst h; rfl
          · rw [hf] at h
            rcases List.mem_append.mp h with h2 | h2
            · have he := containerTypeIssues_sub parent mach i h2
              subst he; rfl
            · exact ih mach.containers (id :: visited) (some mach) i h2
      · exact ih rest visited parent i h

theorem machinesCheck_only_machine (latest : Version) (arena : List Machine) :
    ∀ i ∈ machinesCheck latest arena, i.isMachineIssue = true := by
  intro i hi
  simp only [machinesCheck, List.mem_append] at hi
  rcases hi with (h | h) | h
  · simp only [List.mem_map] at h
    obtain ⟨n, _, he⟩ := h
    subst he; rfl
  · exact walkIds_only_machine arena _ _ _ _ i h
  · simp only [List.mem_flatten] at h
    obtain ⟨l, hl, hil⟩ := h
    simp only [List.mem_map] at hl
    obtain ⟨mach, _, he⟩ := hl
    subst he
    exact machineLocalIssues_only latest mach i hil

theorem servicesCheck_only_service (services : List Service) :
    ∀ i ∈ servicesCheck services, i.isServiceIssue = true := by
  intro i hi
  simp only [servicesCheck, List.mem_append] at hi
  rcases hi with h | h
  · simp only [List.mem_map] at h
    obtain ⟨n, _, he⟩ := h
    subst he; rfl
  · simp only [List.mem_flatten] at h
    obtain ⟨l, hl, hil⟩ := h
    simp only [List.mem_map] at hl
    obtain ⟨s, _, he⟩ := hl
    subst he
    simp only [serviceLocalIssues] at hil
    have he2 := gatedIssue_sub _ _ _ i hil
    subst he2; rfl

theorem issue_kinds_exclusive (i : ValidationIssue) :
    (i.isUserIssue = true → i.isMachineIssue = false ∧ i.isServiceIssue = false) ∧
    (i.isMachineIssue = true → i.isUserIssue = false ∧ i.isServiceIssue = false) ∧
    (i.isServiceIssue = true → i.isUserIssue = false ∧ i.isMachineIssue = false) := by
  cases i <;>
    simp [ValidationIssue.isUserIssue, ValidationIssue.isMachineIssue,
      ValidationIssue.isServiceIssue]

/-- C8: validation is a pure, deterministic function — structurally equal
models give the same issue list — and the list follows the stable phase
order: every user issue precedes every machine issue, which precedes every
service issue, so the output is exactly its user part, then its machine
part, then its service part. -/
theorem validate_deterministic :
    (∀ m1 m2 : Model, m1 = m2 → validate m1 = validate m2) ∧
    (∀ m : Model, validate m =
      (validate m).filter (fun i => i.isUserIssue) ++
      ((validate m).filter (fun i => i.isMachineIssue) ++
        (validate m).filter (fun i => i.isServiceIssue))) := by
  constructor
  · intro m1 m2 h
    rw [h]
  · intro m
    have hu := usersCheck_only_user m.owner m.users
    have hm := machinesCheck_only_machine m.latestToolsVersion m.machines
    have hs := servicesCheck_only_service m.services
    have hv : validate m = usersCheck m.owner m.users ++
        machinesCheck m.latestToolsVersion m.machines ++
        servicesCheck m.services := rfl
    have e1 : (usersCheck m.owner m.users).filter (fun i => i.isUserIssue) =
        usersCheck m.owner m.users :=
      List.filter_eq_self.mpr (fun i h => hu i h)
    have e2 : (machinesCheck m.latestToolsVersion m.machines).filter
        (fun i => i.isUserIssue) = [] :=
      List.filter_eq_nil_iff.mpr
        (fun i h => by simp [((issue_kinds_exclusive i).2.1 (hm i h)).1])
    have e3 : (servicesCheck m.services).filter (fun i => i.isUserIssue) = [] :=
      List.filter_eq_nil_iff.mpr
        (fun i h => by simp [((issue_kinds_exclusive i).2.2 (hs i h)).1])
    have e4 : (usersCheck m.owner m.users).filter
        (fun i => i.isMachineIssue) = [] :=
      List.filter_eq_nil_iff.mpr
        (fun i h => by simp [((issue_kinds_exclusive i).1 (hu i h)).1])
    have e5 : (machinesCheck m.latestToolsVersion m.machines).filter
        (fun i => i.isMachineIssue) =
        machinesCheck m.latestToolsVersion m.machines :=
      List.filter_eq_self.mpr (fun i h => hm i h)
    have e6 : (servicesCheck m.services).filter
        (fun i => i.isMachineIssue) = [] :=
      List.filter_eq_nil_iff.mpr
        (fun i h => by simp [((issue_kinds_exclusive i).2.2 (hs i h)).2])
    have e7 : (usersCheck m.owner m.users).filter
        (fun i => i.isServiceIssue) = [] :=
      List.filter_eq_nil_iff.mpr
        (fun i h => by simp [((issue_kinds_exclusive i).1 (hu i h)).2])
    have e8 : (machinesCheck m.latestToolsVersion m.machines).filter
        (fun i => i.isServiceIssue) = [] :=
      List.filter_eq_nil_iff.mpr
        (fun i h => by simp [((issue_kinds_exclusive i).2.1 (hm i h)).2])
    have e9 : (servicesCheck m.services).filter
        (fun i => i.isServiceIssue) = servicesCheck m.services :=
      List.filter_eq_self.mpr (fun i h => hs i h)
    rw [hv]
    simp only [List.filter_append]
    rw [e1, e2, e3, e4, e5, e6, e7, e8, e9]
    simp

/-- Concrete instantiation of `validate_deterministic`: equal inputs give
equal outputs on the cyclic model, and the two-defect model's issue list
equals its phase-filtered concatenation. -/
theorem validate_deterministic_witness :
    validate cyclicModel = validate cyclicModel ∧
    validate twoDefectModel =
      (validate twoDefectModel).filter (fun i => i.isUserIssue) ++
      ((validate twoDefectModel).filter (fun i => i.isMachineIssue) ++
        (validate twoDefectModel).filter (fun i => i.isServiceIssue)) :=
  ⟨validate_deterministic.1 cyclicModel cyclicModel rfl,
    validate_deterministic.2 twoDefectModel⟩

end Juju
